import Mathlib

/-!
Verification of the deimos-backend TikTok scraping service.

The development shallowly embeds the two revisions of `services/tiktok.go`
found in the repository:

* `V1` denotes the revision in `src/services/tiktok.go`
  (itemsPerPage = 6, navigation errors fatal, `start >= len` guard before
  the page slice, thumbnail validated with `url.ParseRequestURI`);
* `V2` denotes the revision in `src/unnamed/part_001`
  (itemsPerPage = 3, navigation errors skipped with `continue`, thumbnail
  validated with `isValidThumbnailURL`, no `start` guard before the slice).

HTML parsing and the headless browser are abstracted: a search-result node
is modelled by the four goquery lookups the code performs on it, and a
pagination attempt by its outcome (an error or the extracted records).
The scheme-parsing part of Go's `net/url` package is embedded faithfully
(`getscheme`); the later host/escape validations of `url.Parse` only make
the real parser stricter and are documented at the definitions that
abstract them.
-/

deriving instance DecidableEq for Except

namespace DeimosBackend

/-- A raw byte is a control byte when it is below 0x20 or equals 0x7f.
Model of `stringContainsCTLByte`'s per-byte test in Go `net/url`
(on a `Char` basis; multi-byte UTF-8 code units are never control bytes). -/
def isCTL (c : Char) : Bool := c.val < 0x20 || c.val == 0x7f

/-- Model of the byte loop of Go `strings.HasPrefix` on chars. -/
def listStarts : List Char → List Char → Bool
  | [], _ => true
  | _ :: _, [] => false
  | p :: ps, c :: cs => (p == c) && listStarts ps cs

/-- `strStarts s p` models Go `strings.HasPrefix(s, p)` (for ASCII `p`,
byte-level and char-level prefix tests agree). -/
def strStarts (s p : String) : Bool := listStarts p.data s.data

/-- Outcome of Go `net/url.getscheme`: an error (colon at position 0),
no scheme (the whole string is the rest), or a scheme plus the rest
after the colon. -/
inductive SchemeScan where
  | schemeErr : SchemeScan
  | schemeNone : SchemeScan
  | schemeFound : List Char → List Char → SchemeScan
deriving DecidableEq

/-- Model of the scanning loop of Go `net/url.getscheme`: `acc` holds the
characters read so far (so `acc = []` iff the loop index is 0). -/
def getSchemeAux (acc : List Char) : List Char → SchemeScan
  | [] => .schemeNone
  | c :: cs =>
    if ('a' ≤ c && c ≤ 'z') || ('A' ≤ c && c ≤ 'Z') then
      getSchemeAux (acc ++ [c]) cs
    else if ('0' ≤ c && c ≤ '9') || c == '+' || c == '-' || c == '.' then
      (if acc.isEmpty then .schemeNone else getSchemeAux (acc ++ [c]) cs)
    else if c == ':' then
      (if acc.isEmpty then .schemeErr else .schemeFound acc cs)
    else .schemeNone

/-- ASCII lowercasing of one character, as Go `strings.ToLower` acts on
the ASCII scheme characters. -/
def asciiLower (c : Char) : Char :=
  if 'A' ≤ c && c ≤ 'Z' then Char.ofNat (c.toNat + 32) else c

/-- The scheme of a URL string as Go `net/url.Parse` computes it
(`getscheme` followed by `strings.ToLower`); `""` when the string has no
scheme. A string is "scheme-qualified" (an absolute URI) iff this is
nonempty. -/
def schemeOf (s : String) : String :=
  match getSchemeAux [] s.data with
  | .schemeFound sch _ => ⟨sch.map asciiLower⟩
  | _ => ""

/-- Model of Go `net/url.Parse` restricted to what the code consumes: the
control-byte check, `getscheme`, and lowercasing; `none` models a parse
error. The host/port and percent-escape validations performed later by
`url.Parse` are omitted: they can only turn further inputs into errors and
never change the scheme of a string the real parser accepts. -/
def urlParseScheme (s : String) : Option String :=
  if s.data.any isCTL then none
  else
    match getSchemeAux [] s.data with
    | .schemeErr => none
    | .schemeNone => some ""
    | .schemeFound sch _ => some ⟨sch.map asciiLower⟩

/-- Model of the acceptance test of Go `net/url.ParseRequestURI`
(`parse` with `viaRequest = true`): control bytes and the empty string are
rejected, `"*"` is accepted, and after scheme extraction the input is
accepted when the rest begins with `/` (rooted path) or a scheme is
present (absolute or opaque URI). The later percent-escape validation of
`setPath` and the host validation of `parseAuthority`/`parseHost` are
omitted, so this predicate accepts a SUPERSET of what the real function
accepts (e.g. `"/a%zz"` and `"http://a b"` are rejected by the real
function but accepted here). It is therefore used only in positions where
that is conservative: as a hypothesis, to conclude rejection (a rejection
by this predicate is also a rejection by the real function, since the
omitted validations can only reject more), and to bound the accepted set
from above; a concrete acceptance is asserted only at inputs with no
percent escape and no authority component, on which the omitted
validations are vacuous. -/
def parseRequestURIAccepts (s : String) : Bool :=
  if s.data.any isCTL then false
  else if s.data.isEmpty then false
  else if s == "*" then true
  else
    match getSchemeAux [] s.data with
    | .schemeErr => false
    | .schemeNone => strStarts s "/"
    | .schemeFound _ _ => true

/-- `isValidThumbnailURL` from `src/unnamed/part_001`: the thumbnail must
parse, its scheme must be `http` or `https`, and it must not begin with
`data:image`. -/
def isValidThumbnailURL (thumbnail : String) : Bool :=
  match urlParseScheme thumbnail with
  | none => false
  | some sch => (sch == "http" || sch == "https") && !(strStarts thumbnail "data:image")

/-- The `Video` struct of `services/tiktok.go`. -/
structure Video where
  URL : String
  Thumbnail : String
  Caption : String
  User : String
deriving DecidableEq

/-- One `div[data-e2e="search_top-item"]` node, abstracted to the four
goquery lookups the extractor performs on it: `s.Find("a").Attr("href")`,
`s.Find("img").Attr("src")`, the caption text of the next-sibling section
(goquery `.Text()` returns `""` when the caption element is absent), and
the user link `href` of that sibling. -/
structure SearchNode where
  href : Option String
  imgSrc : Option String
  caption : String
  userHref : Option String
deriving DecidableEq

/-- The body of the `.Each` callback of `extractVideosFromHTML`
(`src/unnamed/part_001` lines 94–121): skip on missing `href`, rewrite a
link not starting with `"http"` by prefixing the base URL, skip on a
missing or invalid thumbnail, read the sibling caption, skip on a missing
user link, and append the record. -/
def extractStep (base : String) (videos : List Video) (s : SearchNode) : List Video :=
  match s.href with
  | none => videos
  | some href0 =>
    match s.imgSrc with
    | none => videos
    | some thumbnail =>
      if isValidThumbnailURL thumbnail = false then videos
      else
        match s.userHref with
        | none => videos
        | some user =>
          videos ++ [⟨if strStarts href0 "http" then href0 else base ++ href0,
                      thumbnail, s.caption, base ++ user⟩]

/-- `extractVideosFromHTML` of `src/unnamed/part_001`, over the abstracted
node list (in document order, as goquery `Find(...).Each` iterates). -/
def extractVideosFromHTML (base : String) (nodes : List SearchNode) : List Video :=
  nodes.foldl (extractStep base) []

/-- Per-node characterisation used to state the claims: a record is
produced exactly when the node yields an `href`, a valid thumbnail and a
user link; the caption text is passed through unconditionally. -/
def videoOfNode (base : String) (s : SearchNode) : Option Video :=
  match s.href, s.imgSrc, s.userHref with
  | some href0, some thumbnail, some user =>
    if isValidThumbnailURL thumbnail = false then none
    else some ⟨if strStarts href0 "http" then href0 else base ++ href0,
               thumbnail, s.caption, base ++ user⟩
  | _, _, _ => none

/-- The body of the `.Each` callback inlined in `SearchTikTokVideos` of
`src/services/tiktok.go` (lines 63–102): like `extractStep` but with the
early stop once `page * itemsPerPage` records are held, the fixed base
origin `https://www.tiktok.com`, and the thumbnail checked only with
`url.ParseRequestURI`. -/
def extractStepV1 (cap : Nat) (videos : List Video) (s : SearchNode) : List Video :=
  if cap ≤ videos.length then videos
  else
    match s.href with
    | none => videos
    | some href0 =>
      match s.imgSrc with
      | none => videos
      | some thumbnail =>
        if parseRequestURIAccepts thumbnail = false then videos
        else
          match s.userHref with
          | none => videos
          | some user =>
            videos ++ [⟨if strStarts href0 "http" then href0
                        else "https://www.tiktok.com" ++ href0,
                        thumbnail, s.caption, "https://www.tiktok.com" ++ user⟩]

/-- The record accumulation of `SearchTikTokVideos` in
`src/services/tiktok.go`, over the abstracted node list of the final
rendered document. -/
def extractVideosV1 (cap : Nat) (nodes : List SearchNode) : List Video :=
  nodes.foldl (extractStepV1 cap) []

/-- `SearchTikTokVideos` of `src/services/tiktok.go` after a successful
accumulation (lines 63–117): extract up to `page * 6` records, then
`start := (page-1)*6`, `end := start+6`; if `start >= len(videos)` return
the error `"no more data available"`, otherwise clamp `end` to
`len(videos)` and return the slice `videos[start:end]`. -/
def searchTikTokVideosV1 (nodes : List SearchNode) (page : Nat) : Except String (List Video) :=
  if (extractVideosV1 (page * 6) nodes).length ≤ (page - 1) * 6 then
    .error "no more data available"
  else
    .ok (((extractVideosV1 (page * 6) nodes).drop ((page - 1) * 6)).take
      (min ((page - 1) * 6 + 6) (extractVideosV1 (page * 6) nodes).length - (page - 1) * 6))

/-- The attempt loop of `SearchTikTokVideos` in `src/unnamed/part_001`
(lines 49–76). Each list entry is the outcome of one loop iteration
(`for i := 0; i < page; i++`): `Except.error ()` when `chromedp.Run` or
`extractVideosFromHTML` failed (the code logs and `continue`s), or
`Except.ok extracted` with the records extracted from the captured markup.
A successful iteration appends to the accumulator and breaks once
`itemsPerPage * page` records are held. -/
def runAttempts (target : Nat) : List (Except Unit (List Video)) → List Video → List Video
  | [], videos => videos
  | a :: rest, videos =>
    match a with
    | .error _ => runAttempts target rest videos
    | .ok extracted =>
      if target ≤ (videos ++ extracted).length then videos ++ extracted
      else runAttempts target rest (videos ++ extracted)

/-- `SearchTikTokVideos` of `src/unnamed/part_001` (lines 34–85) with
`itemsPerPage = 3`: run the attempt loop, then `start := (page-1)*3`,
`end := start+3` clamped to `len(videos)`, and return `videos[start:end]`.
The code has no guard on `start`, so when `start > len(videos)` the Go
slice expression violates its bounds and panics at run time; that panic
state is modelled by `none`. -/
def searchTikTokVideosV2 (attempts : List (Except Unit (List Video))) (page : Nat) :
    Option (List Video) :=
  if (page - 1) * 3 ≤ (runAttempts (3 * page) attempts []).length then
    some (((runAttempts (3 * page) attempts []).drop ((page - 1) * 3)).take
      (min ((page - 1) * 3 + 3) (runAttempts (3 * page) attempts []).length - (page - 1) * 3))
  else none

/-- One `<source>` element matched by `doc.Find("video source")` (all
`<source>` descendants of `<video>` elements, in document order), with its
optional `src` attribute. -/
structure SourceElem where
  src : Option String
deriving DecidableEq

/-- The `EachWithBreak` loop of `GetVideoUrl`: at index 2 read the `src`
attribute (goquery `Attr` yields `""` when the attribute is absent, and
the code discards the `exists` flag) and stop; when fewer than three
matches exist `videoUrl` keeps its zero value `""`. -/
def thirdSourceUrl (sources : List SourceElem) : String :=
  match sources[2]? with
  | some s => s.src.getD ""
  | none => ""

/-- Error taxonomy of the resolver, per the messages in `GetVideoUrl`:
`invalidInput` is `"invalid video URL"` and `notFound` is
`"video source not found"`. -/
inductive ResolverError where
  | invalidInput : ResolverError
  | notFound : ResolverError
deriving DecidableEq

/-- `GetVideoUrl` (`src/unnamed/part_001` lines 127–165, identical logic
in `src/services/tiktok.go` lines 121–167): validate the input with
`url.ParseRequestURI` and fail with `invalidInput` otherwise, then
navigate (the rendered page's `video source` matches are the abstracted
`sources` argument), take the third source's `src`, and fail with
`notFound` when it is empty. The validation uses
`parseRequestURIAccepts`, which over-approximates the real acceptance
(see its comment); accordingly only its rejections, its upper bound on
the accepted set, and concrete acceptances on escape- and authority-free
inputs are asserted about this function's first branch. -/
def getVideoUrl (videoPageUrl : String) (sources : List SourceElem) :
    Except ResolverError String :=
  if parseRequestURIAccepts videoPageUrl = false then .error .invalidInput
  else if thirdSourceUrl sources = "" then .error .notFound
  else .ok (thirdSourceUrl sources)

/-- An upstream HTTP response to the content-relay fetch: its status code
and full body bytes. -/
structure HttpResponse where
  statusCode : Nat
  body : List Nat
deriving DecidableEq

/-- The relay's error: `received status code %d`, carrying the code. -/
inductive RelayError where
  | upstream : Nat → RelayError
deriving DecidableEq

/-- `ProxyVideoContent` (both revisions, lines 180–190 of
`src/unnamed/part_001`) after `client.Do` returned a response: fail with
the status-code error when the status is not `http.StatusOK` (200),
otherwise return `io.ReadAll` of the body, i.e. the full body bytes. -/
def proxyVideoContent (resp : HttpResponse) : Except RelayError (List Nat) :=
  if resp.statusCode ≠ 200 then .error (.upstream resp.statusCode)
  else .ok resp.body

/-! ## Helper lemmas -/

theorem extractStep_eq (base : String) (videos : List Video) (s : SearchNode) :
    extractStep base videos s = videos ++ (videoOfNode base s).toList := by
  rcases s with ⟨h, i, c, u⟩
  cases h <;> cases i <;> cases u <;> simp only [extractStep, videoOfNode] <;>
    first
      | simp
      | (split <;> simp)

theorem foldl_extractStep (base : String) (nodes : List SearchNode) :
    ∀ acc : List Video,
      nodes.foldl (extractStep base) acc = acc ++ nodes.filterMap (videoOfNode base) := by
  induction nodes with
  | nil => intro acc; simp
  | cons n ns ih =>
    intro acc
    rw [List.foldl_cons, ih, extractStep_eq, List.filterMap_cons]
    cases videoOfNode base n <;> simp

theorem extract_eq_filterMap (base : String) (nodes : List SearchNode) :
    extractVideosFromHTML base nodes = nodes.filterMap (videoOfNode base) := by
  rw [extractVideosFromHTML, foldl_extractStep]
  simp

theorem listStarts_ex : ∀ p l : List Char, listStarts p l = true → ∃ u, l = p ++ u := by
  intro p
  induction p with
  | nil => intro l _; exact ⟨l, rfl⟩
  | cons a as ih =>
    intro l h
    cases l with
    | nil => simp [listStarts] at h
    | cons b bs =>
      rw [listStarts, Bool.and_eq_true, beq_iff_eq] at h
      obtain ⟨rfl, h2⟩ := h
      obtain ⟨u, hu⟩ := ih bs h2
      exact ⟨u, by rw [hu]; rfl⟩

theorem getSchemeAux_found_ne_nil :
    ∀ (l acc sch rest : List Char),
      getSchemeAux acc l = .schemeFound sch rest → sch ≠ [] := by
  intro l
  induction l with
  | nil => intro acc sch rest h; simp [getSchemeAux] at h
  | cons c cs ih =>
    intro acc sch rest h
    rw [getSchemeAux] at h
    split at h
    · exact ih _ _ _ h
    · split at h
      · split at h
        · simp at h
        · exact ih _ _ _ h
      · split at h
        · split at h
          · simp at h
          · rw [SchemeScan.schemeFound.injEq] at h
            obtain ⟨rfl, rfl⟩ := h
            simpa [List.isEmpty_iff] using ‹¬ (List.isEmpty acc = true)›
        · simp at h

theorem getSchemeAux_append :
    ∀ (l₁ acc sch rest l₂ : List Char),
      getSchemeAux acc l₁ = .schemeFound sch rest →
      getSchemeAux acc (l₁ ++ l₂) = .schemeFound sch (rest ++ l₂) := by
  intro l₁
  induction l₁ with
  | nil => intro acc sch rest l₂ h; simp [getSchemeAux] at h
  | cons c cs ih =>
    intro acc sch rest l₂ h
    rw [getSchemeAux] at h
    rw [List.cons_append, getSchemeAux]
    split at h
    · rw [if_pos ‹_›]
      exact ih _ _ _ _ h
    · rw [if_neg ‹_›]
      split at h
      · rw [if_pos ‹_›]
        split at h
        · simp at h
        · rw [if_neg ‹_›]
          exact ih _ _ _ _ h
      · rw [if_neg ‹_›]
        split at h
        · rw [if_pos ‹_›]
          split at h
          · simp at h
          · rw [if_neg ‹_›]
            rw [SchemeScan.schemeFound.injEq] at h
            obtain ⟨rfl, rfl⟩ := h
            rfl
        · simp at h

theorem schemeOf_append (base s : String) (hb : schemeOf base ≠ "") :
    schemeOf (base ++ s) = schemeOf base := by
  rw [schemeOf] at hb ⊢
  rcases hg : getSchemeAux [] base.data with _ | _ | ⟨sch, rest⟩
  · rw [hg] at hb; simp at hb
  · rw [hg] at hb; simp at hb
  · have hdata : (base ++ s).data = base.data ++ s.data := rfl
    rw [schemeOf, hdata, getSchemeAux_append base.data [] sch rest s.data hg, hg]

theorem schemeOf_data_starts (t : String) (h : strStarts t "data:" = true) :
    schemeOf t = "data" := by
  obtain ⟨u, hu⟩ := listStarts_ex _ _ h
  rw [schemeOf, hu]
  rfl

theorem urlParseScheme_eq_schemeOf (t sch : String) (hp : urlParseScheme t = some sch)
    (hne : sch ≠ "") : schemeOf t = sch := by
  rw [urlParseScheme] at hp
  split at hp
  · simp at hp
  · rw [schemeOf]
    rcases hg : getSchemeAux [] t.data with _ | _ | ⟨s', r'⟩ <;> rw [hg] at hp
    · simp at hp
    · simp at hp; exact absurd hp.symm hne
    · simpa using hp

theorem isValidThumbnailURL_scheme (t : String) (h : isValidThumbnailURL t = true) :
    (schemeOf t = "http" ∨ schemeOf t = "https") ∧ strStarts t "data:" = false := by
  rw [isValidThumbnailURL] at h
  rcases hp : urlParseScheme t with _ | sch
  · rw [hp] at h; simp at h
  · rw [hp] at h
    rw [Bool.and_eq_true, Bool.or_eq_true, beq_iff_eq, beq_iff_eq] at h
    obtain ⟨hsch, _⟩ := h
    have hne : sch ≠ "" := by rcases hsch with rfl | rfl <;> simp
    have hscheme : schemeOf t = sch := urlParseScheme_eq_schemeOf t sch hp hne
    refine ⟨by rw [hscheme]; exact hsch, ?_⟩
    by_contra hdata
    rw [Bool.not_eq_false] at hdata
    have : schemeOf t = "data" := schemeOf_data_starts t hdata
    rw [hscheme] at this
    rcases hsch with rfl | rfl <;> simp at this

theorem runAttempts_skip (pre : List (Except Unit (List Video))) :
    ∀ (post : List (Except Unit (List Video))) (target : Nat) (videos : List Video),
      runAttempts target (pre ++ Except.error () :: post) videos =
        runAttempts target (pre ++ post) videos := by
  induction pre with
  | nil => intro post target videos; simp [runAttempts]
  | cons a pre ih =>
    intro post target videos
    rw [List.cons_append, List.cons_append]
    cases a with
    | error e =>
      simp only [runAttempts]
      exact ih post target videos
    | ok ex =>
      simp only [runAttempts]
      by_cases htarget : target ≤ (videos ++ ex).length
      · rw [if_pos htarget, if_pos htarget]
      · rw [if_neg htarget, if_neg htarget]
        exact ih post target (videos ++ ex)

/-! ## Claim theorems -/

/-- C1: in the `src/services/tiktok.go` revision (`itemsPerPage = 6`), for
every `page ≥ 1` and an accumulation yielding `k` valid records, the
search returns exactly `min(itemsPerPage, k - (page-1)*itemsPerPage)`
records when `(page-1)*itemsPerPage < k` (with natural subtraction, this
is the claim's `min(itemsPerPage, max(0, k - start))`), and reports the
"no more data available" condition when `(page-1)*itemsPerPage ≥ k`
instead of returning an empty or wrapped-around slice. -/
theorem searchV1_page_window (nodes : List SearchNode) (page : Nat) (_hpage : 1 ≤ page) :
    ((extractVideosV1 (page * 6) nodes).length ≤ (page - 1) * 6 →
      searchTikTokVideosV1 nodes page = .error "no more data available") ∧
    ((page - 1) * 6 < (extractVideosV1 (page * 6) nodes).length →
      ∃ vs, searchTikTokVideosV1 nodes page = .ok vs ∧
        vs.length = min 6 ((extractVideosV1 (page * 6) nodes).length - (page - 1) * 6)) := by
  constructor
  · intro h
    rw [searchTikTokVideosV1, if_pos h]
  · intro h
    rw [searchTikTokVideosV1, if_neg (by omega)]
    refine ⟨_, rfl, ?_⟩
    rw [List.length_take, List.length_drop]
    omega

theorem searchV1_page_window_witness :
    ∃ vs,
      searchTikTokVideosV1
        [⟨some "/v/1", some "https://p.example.com/a.jpg", "c", some "/@u"⟩] 1 = .ok vs ∧
      vs.length = min 6
        ((extractVideosV1 (1 * 6)
          [⟨some "/v/1", some "https://p.example.com/a.jpg", "c", some "/@u"⟩]).length -
         (1 - 1) * 6) :=
  (searchV1_page_window
    [⟨some "/v/1", some "https://p.example.com/a.jpg", "c", some "/@u"⟩] 1
    (by decide)).2 (by decide)

/-- C2: the resolver returns the `src` of exactly the third `<source>`
match (0-indexed position 2) of `doc.Find("video source")` in document
order, and fails with the not-found error whenever fewer than three
matches exist or the third one's `src` attribute is absent or empty. -/
theorem getVideoUrl_third_source (u : String) (hu : parseRequestURIAccepts u = true)
    (sources : List SourceElem) :
    (sources.length < 3 → getVideoUrl u sources = .error .notFound) ∧
    (∀ s, sources[2]? = some s →
      ((s.src = none ∨ s.src = some "") → getVideoUrl u sources = .error .notFound) ∧
      (∀ v, s.src = some v → v ≠ "" → getVideoUrl u sources = .ok v)) := by
  have hval : ¬ parseRequestURIAccepts u = false := by simp [hu]
  constructor
  · intro hlen
    have h2 : sources[2]? = none := by
      rw [List.getElem?_eq_none_iff]
      omega
    rw [getVideoUrl, thirdSourceUrl, h2, if_neg hval, if_pos rfl]
  · intro s hs
    constructor
    · intro hsrc
      rw [getVideoUrl, thirdSourceUrl, hs]
      rcases hsrc with h | h <;> simp [hval, h]
    · intro v hv hne
      rw [getVideoUrl, thirdSourceUrl, hs]
      simp [hval, hv, hne]

theorem getVideoUrl_third_source_witness :
    getVideoUrl "https://www.tiktok.com/@x/video/1"
      [⟨some "low"⟩, ⟨some "mid"⟩, ⟨some "https://cdn.example.com/v.mp4"⟩] =
      .ok "https://cdn.example.com/v.mp4" :=
  (((getVideoUrl_third_source "https://www.tiktok.com/@x/video/1" (by decide)
      [⟨some "low"⟩, ⟨some "mid"⟩, ⟨some "https://cdn.example.com/v.mp4"⟩]).2
    ⟨some "https://cdn.example.com/v.mp4"⟩ (by decide)).2
    "https://cdn.example.com/v.mp4" rfl (by decide))

/-- C3: every record produced by `extractVideosFromHTML`
(`src/unnamed/part_001`) has a thumbnail accepted by
`isValidThumbnailURL`, hence its scheme as parsed by `url.Parse` is
`http` or `https` (an absolute http(s) URL) and it is never an inline
`data:` URI; nodes whose image `src` fails the validation contribute no
record (they are dropped by the extraction, see the C6 theorem). -/
theorem extract_thumbnail_valid (base : String) (nodes : List SearchNode) (r : Video)
    (hr : r ∈ extractVideosFromHTML base nodes) :
    isValidThumbnailURL r.Thumbnail = true ∧
    (schemeOf r.Thumbnail = "http" ∨ schemeOf r.Thumbnail = "https") ∧
    strStarts r.Thumbnail "data:" = false := by
  rw [extract_eq_filterMap, List.mem_filterMap] at hr
  obtain ⟨n, _, hn⟩ := hr
  have hval : isValidThumbnailURL r.Thumbnail = true := by
    rcases n with ⟨h, i, c, u⟩
    rcases h with _ | link
    · simp [videoOfNode] at hn
    · rcases i with _ | thumb
      · simp [videoOfNode] at hn
      · rcases u with _ | user
        · simp [videoOfNode] at hn
        · simp only [videoOfNode] at hn
          by_cases hv : isValidThumbnailURL thumb = false
          · rw [if_pos hv] at hn; simp at hn
          · rw [if_neg hv] at hn
            rw [Option.some.injEq] at hn
            subst hn
            simpa [Bool.not_eq_false] using hv
  exact ⟨hval, isValidThumbnailURL_scheme r.Thumbnail hval⟩

theorem extract_thumbnail_valid_witness :
    isValidThumbnailURL "https://img.example.com/t.jpg" = true ∧
    (schemeOf "https://img.example.com/t.jpg" = "http" ∨
      schemeOf "https://img.example.com/t.jpg" = "https") ∧
    strStarts "https://img.example.com/t.jpg" "data:" = false :=
  extract_thumbnail_valid "https://example.com"
    [⟨some "/v/1", some "https://img.example.com/t.jpg", "", some "/@u"⟩]
    ⟨"https://example.com/v/1", "https://img.example.com/t.jpg", "",
      "https://example.com/@u"⟩
    (by decide)

/-- C4: in the `src/unnamed/part_001` revision, a navigation/wait or
extraction failure in one pagination attempt (one iteration of the
`for i < page` loop) is skipped — the search produces exactly the result
it would produce from the remaining attempts' outcomes — and never by
itself aborts the search operation. -/
theorem searchV2_skip_failed_attempt (pre post : List (Except Unit (List Video)))
    (page : Nat) :
    searchTikTokVideosV2 (pre ++ Except.error () :: post) page =
      searchTikTokVideosV2 (pre ++ post) page := by
  rw [searchTikTokVideosV2, searchTikTokVideosV2, runAttempts_skip]

/-- C5 counterexample: the claim "no returned record's url lacks a scheme"
fails. The code's absoluteness test is `strings.HasPrefix(videoLink,
"http")`: an href equal to `"httpfoo"` passes the test, is kept verbatim,
and the produced record's `URL` is `"httpfoo"`, which has no scheme. -/
theorem extract_url_no_scheme_cex :
    extractVideosFromHTML "https://example.com"
      [⟨some "httpfoo", some "https://img.example.com/t.jpg", "", some "/@u"⟩] =
      [⟨"httpfoo", "https://img.example.com/t.jpg", "", "https://example.com/@u"⟩] ∧
    schemeOf "httpfoo" = "" := by
  constructor
  · decide
  · decide

/-- C5 (amended): for every record produced by extraction with a
scheme-qualified base origin, `userProfileUrl` is always scheme-qualified
(the base origin is always prefixed to the user href), and the video URL
is scheme-qualified unless the markup href already began with the literal
prefix `"http"`, in which case it is passed through verbatim and is only
guaranteed to start with `"http"`. -/
theorem extract_url_user_scheme (base : String) (nodes : List SearchNode) (r : Video)
    (hr : r ∈ extractVideosFromHTML base nodes) (hb : schemeOf base ≠ "") :
    schemeOf r.User ≠ "" ∧ (schemeOf r.URL ≠ "" ∨ strStarts r.URL "http" = true) := by
  rw [extract_eq_filterMap, List.mem_filterMap] at hr
  obtain ⟨n, _, hn⟩ := hr
  rcases n with ⟨h, i, c, u⟩
  rcases h with _ | link
  · simp [videoOfNode] at hn
  · rcases i with _ | thumb
    · simp [videoOfNode] at hn
    · rcases u with _ | user
      · simp [videoOfNode] at hn
      · simp only [videoOfNode] at hn
        by_cases hv : isValidThumbnailURL thumb = false
        · rw [if_pos hv] at hn; simp at hn
        · rw [if_neg hv, Option.some.injEq] at hn
          subst hn
          refine ⟨by simpa using (schemeOf_append base user hb).symm ▸ hb, ?_⟩
          by_cases hlink : strStarts link "http" = true
          · right
            rw [if_pos hlink]
            exact hlink
          · left
            have : (if strStarts link "http" = true then link else base ++ link) =
                base ++ link := by simp [hlink]
            simpa [this] using (schemeOf_append base link hb).symm ▸ hb

theorem extract_url_user_scheme_witness :
    schemeOf "https://example.com/@u" ≠ "" ∧
    (schemeOf "https://example.com/v/1" ≠ "" ∨
      strStarts "https://example.com/v/1" "http" = true) :=
  extract_url_user_scheme "https://example.com"
    [⟨some "/v/1", some "https://img.example.com/t.jpg", "", some "/@u"⟩]
    ⟨"https://example.com/v/1", "https://img.example.com/t.jpg", "",
      "https://example.com/@u"⟩
    (by decide) (by decide)

/-- C6: `extractVideosFromHTML` equals the per-node map `videoOfNode`:
a record is produced exactly from the nodes that yield an href, a valid
thumbnail and a user-profile link (the caption text is always available,
possibly empty); a node missing one of those is silently dropped — no
error — and the remaining nodes are still processed, in order. -/
theorem extract_only_complete_nodes (base : String) (nodes : List SearchNode) :
    extractVideosFromHTML base nodes = nodes.filterMap (videoOfNode base) :=
  extract_eq_filterMap base nodes

/-- C7: the claim that the final page-window slice of `SearchTikTokVideos`
is always within bounds is violated by the `src/unnamed/part_001`
revision: with `page = 2` and both attempts failing, the accumulator is
empty and the code evaluates `videos[3:0]` (the end index is clamped to
the length but the start index is not checked), a slice-bounds violation
that panics at run time — the `none` state of the model. The
`src/services/tiktok.go` revision guards this with its
`start >= len(videos)` check. -/
theorem searchV2_slice_out_of_range :
    searchTikTokVideosV2 [Except.error (), Except.error ()] 2 = none := by
  decide

/-- C8: for every upstream response to the content-relay fetch, a non-2xx
status code makes `ProxyVideoContent` fail with the error carrying that
status code, and whenever the fetch succeeds it returns the full response
body bytes. (The code is in fact stricter: any status other than 200,
including other 2xx codes, fails the same way.) -/
theorem proxyVideoContent_status (resp : HttpResponse) :
    (¬ (200 ≤ resp.statusCode ∧ resp.statusCode < 300) →
      proxyVideoContent resp = .error (.upstream resp.statusCode)) ∧
    (∀ b, proxyVideoContent resp = .ok b → b = resp.body) := by
  constructor
  · intro h
    rw [proxyVideoContent, if_pos (by omega)]
  · intro b hb
    rw [proxyVideoContent] at hb
    split at hb
    · exact absurd hb (by simp)
    · simpa using hb.symm

theorem proxyVideoContent_status_witness :
    proxyVideoContent ⟨503, [7, 7, 7]⟩ = .error (.upstream 503) :=
  (proxyVideoContent_status ⟨503, [7, 7, 7]⟩).1 (by decide)

/-- C9 counterexample: the claim "fails with InvalidInputError for every
input that is not a well-formed absolute URL" fails. `url.ParseRequestURI`
also accepts scheme-less rooted request paths: on `"/relative/path"` the
resolver passes validation and proceeds (here to the not-found error of
an empty page), although the input has no scheme. -/
theorem getVideoUrl_accepts_rooted_path_cex :
    parseRequestURIAccepts "/relative/path" = true ∧
    getVideoUrl "/relative/path" [] = .error .notFound ∧
    schemeOf "/relative/path" = "" := by
  refine ⟨by decide, by decide, by decide⟩

/-- C9 (amended): the resolver fails with the invalid-input error, before
any navigation, whenever `url.ParseRequestURI` rejects the input (here:
whenever the conservative model of that validation rejects it, a subset
of the real rejections), and every input it accepts is `"*"`, begins with
`/`, or carries a URI scheme — so acceptance is at most that set, but it
is not limited to well-formed absolute URLs: the scheme-less rooted path
`"/relative/path"` (no percent escape, no authority, so the modelled and
the real validation agree on it) passes validation and proceeds to
navigation. -/
theorem getVideoUrl_input_validation (s : String) (sources : List SourceElem) :
    (parseRequestURIAccepts s = false → getVideoUrl s sources = .error .invalidInput) ∧
    (getVideoUrl "/relative/path" sources ≠ .error .invalidInput) ∧
    (parseRequestURIAccepts s = true →
      s = "*" ∨ strStarts s "/" = true ∨ schemeOf s ≠ "") := by
  refine ⟨?_, ?_, ?_⟩
  · intro h
    rw [getVideoUrl, if_pos h]
  · rw [getVideoUrl, if_neg (by decide)]
    split <;> simp
  · intro h
    rw [parseRequestURIAccepts] at h
    split at h
    · simp at h
    · split at h
      · simp at h
      · split at h
        · left
          exact beq_iff_eq.mp ‹_›
        · rcases hg : getSchemeAux [] s.data with _ | _ | ⟨sch, rest⟩ <;> rw [hg] at h
          · simp at h
          · right; left; exact h
          · right; right
            rw [schemeOf, hg]
            intro hcontra
            apply getSchemeAux_found_ne_nil s.data [] sch rest hg
            have hdat : (sch.map asciiLower) = [] := congrArg String.data hcontra
            simpa using hdat

theorem getVideoUrl_input_validation_witness :
    getVideoUrl "foo" [] = .error .invalidInput ∧
    getVideoUrl "/relative/path" [] ≠ .error .invalidInput ∧
    ("/watch" = "*" ∨ strStarts "/watch" "/" = true ∨ schemeOf "/watch" ≠ "") :=
  ⟨(getVideoUrl_input_validation "foo" []).1 (by decide),
   (getVideoUrl_input_validation "/relative/path" []).2.1,
   (getVideoUrl_input_validation "/watch" []).2.2 (by decide)⟩

/-- C10: a node with an href, a valid thumbnail and a user-profile link
produces a record for every caption text, which is passed through
unchanged — in particular for the empty caption, which is what goquery's
`.Text()` yields when the caption element of the sibling section is
absent. Caption absence never causes the node to be skipped, unlike the
other three fields. -/
theorem extract_caption_not_required (base cap link thumb user : String)
    (ht : isValidThumbnailURL thumb = true) :
    extractVideosFromHTML base [⟨some link, some thumb, cap, some user⟩] =
      [⟨if strStarts link "http" then link else base ++ link, thumb, cap, base ++ user⟩] := by
  simp [extractVideosFromHTML, extractStep, ht]

theorem extract_caption_not_required_witness :
    extractVideosFromHTML "https://example.com"
      [⟨some "/v/1", some "https://img.example.com/t.jpg", "", some "/@u"⟩] =
      [⟨if strStarts "/v/1" "http" then "/v/1" else "https://example.com" ++ "/v/1",
        "https://img.example.com/t.jpg", "", "https://example.com" ++ "/@u"⟩] :=
  extract_caption_not_required "https://example.com" "" "/v/1"
    "https://img.example.com/t.jpg" "/@u" (by decide)

end DeimosBackend
